import Mathlib

/-! # Verification of the `mnc` multicast-netcat pipeline

Shallow embedding of the packet value types, protocol decoders, reader and
writer framing loops, the statistics accumulators, and the reader's
max-count gate, translated from the Rust sources (`src/packet.rs`,
`src/sdds.rs`, `src/vita49.rs`, `src/reader.rs`, `src/writer.rs`,
`src/statistics.rs`, `src/main.rs`).

Bytes are modelled as `Nat`; where the Rust type system guarantees a byte
is a `u8`, extraction reduces modulo 256.  Machine-integer casts are made
explicit (`% 2^32` for `as u32`).  I/O and channel effects are modelled as
explicit lists: an input stream is a `List Nat` of bytes, a channel's
content is a list of batches. -/

namespace Mnc

/-- Rust slice indexing `packet.get(a..b)`: `none` when the range is
invalid or extends past the end of the slice. -/
def sliceGet (xs : List Nat) (a b : Nat) : Option (List Nat) :=
  if a ≤ b ∧ b ≤ xs.length then some ((xs.drop a).take (b - a)) else none

/-- `u16::from_be_bytes` on a two-byte slice. -/
def u16FromBe (hi lo : Nat) : Nat := hi * 256 + lo

/-- `u32::from_le_bytes`. -/
def u32FromLe (b0 b1 b2 b3 : Nat) : Nat :=
  b0 + b1 * 256 + b2 * 65536 + b3 * 16777216

/-- `u32::to_le_bytes` (argument already reduced to the u32 range by the
caller's cast). -/
def u32ToLe (n : Nat) : List Nat :=
  [n % 256, n / 256 % 256, n / 65536 % 256, n / 16777216 % 256]

/-! ## `src/packet.rs` -/

/-- `PacketType` (src/packet.rs). -/
inductive PacketType where
  | text
  | binary
  | vita49
  | sdds
deriving DecidableEq, Repr

/-- `Packet` (src/packet.rs): an owned byte buffer together with an
independent logical `length`. -/
structure Packet where
  data : List Nat
  length : Nat
deriving DecidableEq, Repr

/-- `Packet::new`. -/
def Packet.new (data : List Nat) : Packet := ⟨data, data.length⟩

/-- `Packet::with_capacity`: `vec![0u8; capacity]` with `length = capacity`. -/
def Packet.withCapacity (capacity : Nat) : Packet :=
  ⟨List.replicate capacity 0, capacity⟩

/-- `Packet::set_length`. -/
def Packet.setLength (p : Packet) (length : Nat) : Packet :=
  { p with length := length }

/-- `impl Deref for Packet` (src/packet.rs lines 59–72): the view is
`data[0..min(length, data.len())]`, with the (unreachable) `None` branch
of `self.data.get(..len)` yielding the empty slice. -/
def Packet.deref (p : Packet) : List Nat :=
  let len := min p.length p.data.length
  match sliceGet p.data 0 len with
  | some slice => slice
  | none => []

/-! ## `src/sdds.rs` -/

/-- `sdds::frame_sequence_number`: big-endian `u16` at bytes `[2..4]`,
`0` when the slice is too short. -/
def frameSequenceNumber (packet : List Nat) : Nat :=
  match sliceGet packet 2 4 with
  | some [hi, lo] => u16FromBe (hi % 256) (lo % 256)
  | _ => 0

/-- `sdds::time_tag`: big-endian `u64` at bytes `[8..16]`, `0` when the
slice is too short. -/
def timeTag (packet : List Nat) : Nat :=
  match sliceGet packet 8 16 with
  | some bytes =>
    if bytes.length = 8 then bytes.foldl (fun acc b => acc * 256 + b % 256) 0 else 0
  | none => 0

/-- `sdds::time_tag_ext`: big-endian `u32` at bytes `[16..20]`, `0` when
the slice is too short. -/
def timeTagExt (packet : List Nat) : Nat :=
  match sliceGet packet 16 20 with
  | some bytes =>
    if bytes.length = 4 then bytes.foldl (fun acc b => acc * 256 + b % 256) 0 else 0
  | none => 0

/-- `sdds::sddstime`: decompose a raw `u64` time tag into
`(days, hours, mins, secs, nsecs)`; 4,000,000,000 quarter-nanoseconds per
second, day index 1-based (`1 + tt as u32`, the cast reducing mod 2³²). -/
def sddstime (timetag : Nat) : Nat × Nat × Nat × Nat × Nat :=
  let nsecs := timetag % 4000000000 / 4
  let tt1 := timetag / 4000000000
  let secs := tt1 % 60
  let tt2 := tt1 / 60
  let mins := tt2 % 60
  let tt3 := tt2 / 60
  let hours := tt3 % 24
  let tt4 := tt3 / 24
  let days := (1 + tt4 % 4294967296) % 4294967296
  (days, hours, mins, secs, nsecs)

/-- Zero-pad the decimal rendering of `n` to `width` digits. -/
def padZeros (n width : Nat) : String :=
  let s := toString n
  String.mk (List.replicate (width - s.length) '0') ++ s

/-- `sdds::format_timestamp`: `DDD:HH:MM:SS:NNNNNNNNN`. -/
def formatTimestamp (timetag : Nat) : String :=
  let t := sddstime timetag
  padZeros t.1 3 ++ ":" ++ padZeros t.2.1 2 ++ ":" ++ padZeros t.2.2.1 2 ++ ":" ++
    padZeros t.2.2.2.1 2 ++ ":" ++ padZeros t.2.2.2.2 9

/-! ## `src/vita49.rs` -/

/-- `vita49::HEADER_SIZE`. -/
def HEADER_SIZE : Nat := 8

/-- `vita49::Vita49Header`. -/
structure Vita49Header where
  frameSequenceNumber : Nat
  frameSize : Nat
deriving DecidableEq, Repr

/-- `vita49::parse_header` (src/vita49.rs lines 25–53): zeros for a short
packet or a magic other than ASCII `"VRLP"`; otherwise the 12-bit frame
sequence `(byte4 << 4) | (byte5 >> 4)` and 20-bit frame size
`((byte5 & 0x0F) << 16) | (byte6 << 8) | byte7`. -/
def parseHeader (packet : List Nat) : Vita49Header :=
  if packet.length < HEADER_SIZE then ⟨0, 0⟩
  else if sliceGet packet 0 4 ≠ some [86, 82, 76, 80] then ⟨0, 0⟩
  else
    let byte4 := packet.getD 4 0 % 256
    let byte5 := packet.getD 5 0 % 256
    let byte6 := packet.getD 6 0 % 256
    let byte7 := packet.getD 7 0 % 256
    { frameSequenceNumber := byte4 <<< 4 ||| byte5 >>> 4
      frameSize := (byte5 &&& 0x0F) <<< 16 ||| byte6 <<< 8 ||| byte7 }

/-! ## `src/error.rs`

Only the error variants reachable from the embedded code fragments are
modelled: `LibError::Critical` and `LibError::Io` carrying
`ErrorKind::UnexpectedEof` (the sole I/O error a pure byte-list stream can
produce). -/

/-- `LibError` (src/error.rs), restricted to the reachable variants. -/
inductive LibError where
  | ioUnexpectedEof
  | critical (msg : String)
deriving DecidableEq, Repr

/-! ## `src/main.rs`: `SharedState` -/

/-- `SharedState` (src/main.rs lines 162–193).  The atomic `u64` counter is
modelled as a `Nat` (relaxed atomics are sound to model as plain state here:
the reader is the only thread that increments the counter). -/
structure SharedState where
  packetCount : Nat
  shouldExit : Bool
  packetType : PacketType
  verbose : Bool
deriving DecidableEq, Repr

/-- `SharedState::add_count`: `fetch_add(delta) + delta`, returning the
updated state together with the post-increment value. -/
def SharedState.addCount (s : SharedState) (delta : Nat) : SharedState × Nat :=
  ({ s with packetCount := s.packetCount + delta }, s.packetCount + delta)

/-- `SharedState::get_count`. -/
def SharedState.getCount (s : SharedState) : Nat := s.packetCount

/-- `SharedState::signal_exit`. -/
def SharedState.signalExit (s : SharedState) : SharedState :=
  { s with shouldExit := true }

/-! ## `src/reader.rs` -/

/-- `RECVMMSG_BUFFER_COUNT` (src/reader.rs). -/
def RECVMMSG_BUFFER_COUNT : Nat := 1000

/-- `MAX_PACKET_SIZE` (src/reader.rs). -/
def MAX_PACKET_SIZE : Nat := 65536

/-- The three input sources `run_reader` can dispatch to. -/
inductive ReaderSource where
  | stdinSource
  | fileSource (filename : String)
  | networkSource
deriving DecidableEq, Repr

/-- The input dispatch of `run_reader` (src/reader.rs lines 72–97):
`Some(filename) if filename == "="` selects stdin, any other `Some`
selects a file of that name, `None` selects the network. -/
def runReaderDispatch (input : Option String) : ReaderSource :=
  match input with
  | some filename =>
    if filename = "=" then ReaderSource.stdinSource
    else ReaderSource.fileSource filename
  | none => ReaderSource.networkSource

/-- `read_binary_mode` (src/reader.rs lines 292–338) as a function of the
byte stream: returns the sequence of packets it publishes, or its first
error.  `read_exact` on the 4-byte length buffer yields `UnexpectedEof`
(and the loop breaks cleanly) whenever fewer than 4 bytes remain;
`read_exact` on the payload propagates `UnexpectedEof` through `?`.
The `should_exit` check (never set in the runs modelled), the channel
sends, and the `add_count`/`max_count` bookkeeping are elided: they do not
touch the byte stream. -/
def readBinaryMode : List Nat → Except LibError (List (List Nat))
  | b0 :: b1 :: b2 :: b3 :: rest =>
    let length := u32FromLe b0 b1 b2 b3
    if MAX_PACKET_SIZE < length then
      Except.error (LibError.critical ("Packet too large: " ++ toString length ++ " bytes"))
    else if rest.length < length then
      Except.error LibError.ioUnexpectedEof
    else
      match readBinaryMode (rest.drop length) with
      | Except.ok packets => Except.ok (rest.take length :: packets)
      | Except.error e => Except.error e
  | _ => Except.ok []
termination_by stream => stream.length
decreasing_by simp; omega

/-- The number of valid descriptors in one `recvmmsg` result: the length
of the prefix of `byte_counts` with positive byte counts
(src/reader.rs line 162). -/
def countReceived (byteCounts : List Nat) : Nat :=
  (byteCounts.takeWhile (fun bytes => 0 < bytes)).length

/-- The hot loop of `read_from_network` (src/reader.rs lines 121–203),
driven by the sequence of `recvmmsg` results (each event is the
`byte_counts` list of one successful call; `EINTR`/`EAGAIN` iterations are
just absent from the list).  Per iteration: exit checks at the loop head,
count of valid descriptors, clamp of `send_count` to
`max_count − get_count()` when `max_count > 0`, `add_count`, and exit once
the post-increment total reaches `max_count`.  Publishing the batch to the
channels is elided (a try-send never changes the counter; the run is
assumed error-free). -/
def readFromNetworkLoop (maxCount : Nat) : SharedState → List (List Nat) → SharedState
  | st, [] => st
  | st, byteCounts :: rest =>
    if st.shouldExit then st
    else if 0 < maxCount ∧ maxCount ≤ st.getCount then st.signalExit
    else
      let received := countReceived byteCounts
      if received = 0 then readFromNetworkLoop maxCount st rest
      else
        let sendCount :=
          if 0 < maxCount then min received (maxCount - st.getCount)
          else received
        let stepped := st.addCount sendCount
        if 0 < maxCount ∧ maxCount ≤ stepped.2 then stepped.1.signalExit
        else readFromNetworkLoop maxCount stepped.1 rest

/-- Total number of packets the source delivered across a run's
`recvmmsg` events (valid descriptors only). -/
def producedCount (events : List (List Nat)) : Nat :=
  (events.map countReceived).sum

/-! ## `src/writer.rs` -/

/-- The framing `write_binary_mode` emits for one packet
(src/writer.rs lines 266–268): the packet's view length as a little-endian
`u32` (cast reducing mod 2³²), then the payload bytes. -/
def writePacketBinary (packet : List Nat) : List Nat :=
  u32ToLe (packet.length % 4294967296) ++ packet

/-- `write_binary_mode` (src/writer.rs lines 259–285) as a function of the
sequence of batches consumed from the channel: the bytes written.  The
main `recv` loop and the `should_exit` drain emit the identical per-packet
framing, so the output depends only on the packet sequence. -/
def writeBinaryMode (batches : List (List (List Nat))) : List Nat :=
  (batches.flatMap id).flatMap writePacketBinary

/-- `BATCH_SIZE` in `write_with_sendmmsg` (src/writer.rs line 121). -/
def WRITER_BATCH_SIZE : Nat := 32

/-- One iteration of `write_with_sendmmsg` (src/writer.rs lines 124–169)
given the batches currently queued on the data channel: the `try_recv`
loop collects up to `BATCH_SIZE` batches from the front, the flattened
concatenation is truncated with `.take(BATCH_SIZE)` to form the `sendmmsg`
iovec list, and `packet_batch.clear()` ends the iteration.  Returns the
packets passed to `sendmmsg` and the channel contents left for later
iterations.  (The blocking `recv_timeout` branch for an empty collect is
not taken when the channel is nonempty.) -/
def sendmmsgIteration {α : Type} (channel : List (List α)) : List α × List (List α) :=
  let packetBatch := channel.take WRITER_BATCH_SIZE
  let packets := (packetBatch.flatMap id).take WRITER_BATCH_SIZE
  (packets, channel.drop WRITER_BATCH_SIZE)

/-! ## `src/statistics.rs` -/

/-- `SddsState` (src/statistics.rs lines 20–25). -/
structure SddsState where
  lastSeq : Option Nat
  skippedInPeriod : Nat
  latestTimestamp : String
deriving DecidableEq, Repr

/-- `SddsState::default()`. -/
def sddsStateDefault : SddsState := ⟨none, 0, ""⟩

/-- The SDDS `process_packet` closure (src/statistics.rs lines 58–79):
a sequence number that is a multiple of 32 is a parity packet — record it
as `last_seq` and return; otherwise accumulate the wrapped 16-bit gap to
the expected successor of `last_seq`, then record `last_seq` and the
formatted time tag. -/
def sddsProcessPacket (packet : List Nat) (state : SddsState) : SddsState :=
  let seq := frameSequenceNumber packet
  if seq % 32 = 0 then { state with lastSeq := some seq }
  else
    let state1 :=
      match state.lastSeq with
      | some prevSeq =>
        let expected := (prevSeq + 1) % 65536
        if seq ≠ expected then
          let skipped :=
            if expected < seq then seq - expected
            else 65535 - expected + seq + 1
          { state with skippedInPeriod := state.skippedInPeriod + skipped }
        else state
      | none => state
    { state1 with
        lastSeq := some seq
        latestTimestamp := formatTimestamp (timeTag packet) }

/-- Run the SDDS accumulator over a list of packets in order. -/
def sddsRun (packets : List (List Nat)) (state : SddsState) : SddsState :=
  packets.foldl (fun s p => sddsProcessPacket p s) state

/-- The exit path of `produce_stats` (src/statistics.rs lines 158–171):
once `should_exit` is observed, every batch still queued on the channel is
drained via `try_iter`, applying `process_packet` to each packet in order
(the `hex_print` side effect is elided); the drain loop does not touch the
window's `packet_count`.  Returns the packet count and accumulator state at
the `break`. -/
def produceStatsExitDrain {σ : Type} (processPacket : List Nat → σ → σ)
    (queued : List (List (List Nat))) (packetCount : Nat) (state : σ) : Nat × σ :=
  (packetCount,
    queued.foldl (fun acc batch => batch.foldl (fun a p => processPacket p a) acc) state)

/-! ## Helper lemmas -/

/-- The SDDS frame sequence number is a `u16`. -/
theorem frameSequenceNumber_lt (packet : List Nat) :
    frameSequenceNumber packet < 65536 := by
  unfold frameSequenceNumber
  cases h : sliceGet packet 2 4 with
  | none => decide
  | some bytes =>
    match bytes with
    | [] => decide
    | [_] =>
      show (0 : Nat) < 65536
      decide
    | [hi, lo] =>
      show u16FromBe (hi % 256) (lo % 256) < 65536
      have h1 : hi % 256 < 256 := Nat.mod_lt _ (by omega)
      have h2 : lo % 256 < 256 := Nat.mod_lt _ (by omega)
      unfold u16FromBe
      omega
    | _ :: _ :: _ :: _ =>
      show (0 : Nat) < 65536
      decide

/-- A `u32` value below 2³² survives the little-endian byte round-trip. -/
theorem u32_le_roundtrip (n : Nat) (h : n < 4294967296) :
    u32FromLe (n % 256) (n / 256 % 256) (n / 65536 % 256) (n / 16777216 % 256) = n := by
  unfold u32FromLe
  omega

/-- Reading one well-formed binary record: the framing of a packet of at
most `MAX_PACKET_SIZE` bytes is decoded back to that packet, and reading
continues on the remaining stream. -/
theorem readBinaryMode_record (p rest : List Nat) (h : p.length ≤ MAX_PACKET_SIZE) :
    readBinaryMode (writePacketBinary p ++ rest) =
      (readBinaryMode rest).map (fun packets => p :: packets) := by
  have hlt : p.length < 4294967296 := by unfold MAX_PACKET_SIZE at h; omega
  unfold writePacketBinary u32ToLe
  rw [Nat.mod_eq_of_lt hlt]
  simp only [List.cons_append, List.nil_append]
  rw [readBinaryMode]
  rw [u32_le_roundtrip p.length hlt]
  rw [if_neg (by unfold MAX_PACKET_SIZE at h ⊢; omega),
    if_neg (by simp only [List.length_append]; omega)]
  rw [List.drop_left, List.take_left]
  cases readBinaryMode rest <;> simp [Except.map]

/-- Binary round-trip over a flat packet sequence. -/
theorem readBinaryMode_writeFlat (ps : List (List Nat))
    (h : ∀ p ∈ ps, p.length ≤ MAX_PACKET_SIZE) :
    readBinaryMode (ps.flatMap writePacketBinary) = Except.ok ps := by
  induction ps with
  | nil => simp [readBinaryMode]
  | cons p ps ih =>
    rw [List.flatMap_cons, readBinaryMode_record p _ (h p (by simp)),
      ih (fun q hq => h q (by simp [hq]))]
    rfl

theorem packetCount_mk (a : Nat) (b : Bool) (c : PacketType) (d : Bool) :
    (SharedState.mk a b c d).packetCount = a := rfl

theorem shouldExit_mk (a : Nat) (b : Bool) (c : PacketType) (d : Bool) :
    (SharedState.mk a b c d).shouldExit = b := rfl

/-- Invariant of the network read loop: started below a positive
`max_count` with the exit flag clear, the loop's final count is
`min max_count (start + produced)` and the exit flag is set exactly when
the limit was reached. -/
theorem readFromNetworkLoop_spec (M : Nat) (hM : 0 < M) (events : List (List Nat)) :
    ∀ st : SharedState, st.shouldExit = false → st.packetCount < M →
      (readFromNetworkLoop M st events).packetCount =
          min M (st.packetCount + producedCount events) ∧
        ((readFromNetworkLoop M st events).shouldExit = true ↔
          M ≤ st.packetCount + producedCount events) := by
  induction events with
  | nil =>
    intro st hexit hlt
    simp only [readFromNetworkLoop, producedCount, List.map_nil, List.sum_nil, Nat.add_zero]
    rw [hexit]
    refine ⟨by omega, ?_⟩
    simp only [Bool.false_eq_true, false_iff]
    omega
  | cons bc rest ih =>
    intro st hexit hlt
    have hprod : producedCount (bc :: rest) = countReceived bc + producedCount rest := by
      simp [producedCount]
    simp only [readFromNetworkLoop, hexit, Bool.false_eq_true, if_false]
    rw [if_neg (by simp only [SharedState.getCount]; omega)]
    by_cases hr : countReceived bc = 0
    · rw [if_pos hr]
      obtain ⟨h1, h2⟩ := ih st hexit hlt
      refine ⟨?_, ?_⟩
      · rw [h1, hprod, hr]
        omega
      · rw [h2, hprod, hr]
        omega
    · simp only [hr, if_false, if_pos hM, SharedState.addCount, SharedState.getCount,
        SharedState.signalExit]
      by_cases hdone : 0 < M ∧ M ≤ st.packetCount + min (countReceived bc) (M - st.packetCount)
      · rw [if_pos hdone]
        refine ⟨?_, ?_⟩
        · simp only [packetCount_mk, hprod]
          omega
        · simp only [shouldExit_mk, true_iff, hprod]
          omega
      · rw [if_neg hdone]
        obtain ⟨h1, h2⟩ := ih
          { st with packetCount := st.packetCount + min (countReceived bc) (M - st.packetCount) }
          (by simp [hexit]) (by simp only [packetCount_mk]; omega)
        refine ⟨?_, ?_⟩
        · rw [h1]
          simp only [packetCount_mk, hprod]
          omega
        · rw [h2]
          simp only [packetCount_mk, hprod]
          omega

/-! ## Claim theorems -/

/-- **C2** — binary-mode file round-trip: for every sequence of batches
whose packets are each at most 65,536 bytes, writing them with
`write_binary_mode` (little-endian `u32` length then payload, per packet)
and reading the resulting byte stream with `read_binary_mode` yields the
same packet sequence byte-for-byte. -/
theorem c2_binary_roundtrip (batches : List (List (List Nat)))
    (h : ∀ b ∈ batches, ∀ p ∈ b, p.length ≤ 65536) :
    readBinaryMode (writeBinaryMode batches) = Except.ok (batches.flatMap id) := by
  unfold writeBinaryMode
  refine readBinaryMode_writeFlat _ ?_
  intro p hp
  rw [List.mem_flatMap] at hp
  obtain ⟨b, hb, hpb⟩ := hp
  exact h b hb p hpb

/-- **C2** witness: the round-trip on the spec's S1 scenario, two batches
holding the packets `"ABCD"` and `"XY"`. -/
theorem c2_binary_roundtrip_witness :
    readBinaryMode (writeBinaryMode [[[65, 66, 67, 68]], [[88, 89]]]) =
      Except.ok [[65, 66, 67, 68], [88, 89]] := by
  have h := c2_binary_roundtrip [[[65, 66, 67, 68]], [[88, 89]]] (by decide)
  exact h.trans rfl

/-- **C5** — counterexample.  The claim states that end-of-input with the
4-byte length header only partially read (here: a 2-byte stream) propagates
as an error; `read_binary_mode` instead breaks cleanly, because `read_exact`
reports `UnexpectedEof` for a partial header exactly as for an empty one
and the loop treats every `UnexpectedEof` on the header read as a clean
stop. -/
theorem c5_partial_header_counterexample : readBinaryMode [1, 0] = Except.ok [] := by
  simp [readBinaryMode]

/-- **C5** (amended) — binary-mode reading: a length header decoding to
more than 65,536 is a `Critical` error; a header of at most 65,536 is
accepted and its record consumed; end-of-input anywhere while reading the
4-byte length header (zero to three bytes remaining) terminates the loop
with `Ok`; end-of-input in the middle of the payload propagates as an
error. -/
theorem c5_binary_read_errors :
    (∀ (b0 b1 b2 b3 : Nat) (rest : List Nat),
        MAX_PACKET_SIZE < u32FromLe b0 b1 b2 b3 →
        readBinaryMode (b0 :: b1 :: b2 :: b3 :: rest) =
          Except.error (LibError.critical
            ("Packet too large: " ++ toString (u32FromLe b0 b1 b2 b3) ++ " bytes"))) ∧
      (∀ (b0 b1 b2 b3 : Nat) (rest : List Nat),
        u32FromLe b0 b1 b2 b3 ≤ MAX_PACKET_SIZE →
        u32FromLe b0 b1 b2 b3 ≤ rest.length →
        readBinaryMode (b0 :: b1 :: b2 :: b3 :: rest) =
          (readBinaryMode (rest.drop (u32FromLe b0 b1 b2 b3))).map
            (fun packets => rest.take (u32FromLe b0 b1 b2 b3) :: packets)) ∧
      (∀ stream : List Nat, stream.length < 4 → readBinaryMode stream = Except.ok []) ∧
      (∀ (b0 b1 b2 b3 : Nat) (rest : List Nat),
        u32FromLe b0 b1 b2 b3 ≤ MAX_PACKET_SIZE →
        rest.length < u32FromLe b0 b1 b2 b3 →
        readBinaryMode (b0 :: b1 :: b2 :: b3 :: rest) =
          Except.error LibError.ioUnexpectedEof) := by
  refine ⟨?_, ?_, ?_, ?_⟩
  · intro b0 b1 b2 b3 rest h
    rw [readBinaryMode]
    simp [h]
  · intro b0 b1 b2 b3 rest h1 h2
    rw [readBinaryMode]
    rw [if_neg (by omega), if_neg (by omega)]
    cases readBinaryMode (rest.drop (u32FromLe b0 b1 b2 b3)) <;> simp [Except.map]
  · intro stream h
    match stream with
    | [] => simp [readBinaryMode]
    | [_] => simp [readBinaryMode]
    | [_, _] => simp [readBinaryMode]
    | [_, _, _] => simp [readBinaryMode]
    | _ :: _ :: _ :: _ :: _ => simp at h; omega
  · intro b0 b1 b2 b3 rest h1 h2
    rw [readBinaryMode]
    rw [if_neg (by omega), if_pos (by omega)]

/-- **C5** witness: each branch of the amended theorem at a concrete
stream — oversize header `00 00 02 00` (131,072), an accepted one-byte
record, a 2-byte truncated header, and a record whose payload is cut
short. -/
theorem c5_binary_read_errors_witness :
    readBinaryMode [0, 0, 2, 0] =
        Except.error (LibError.critical
          ("Packet too large: " ++ toString (u32FromLe 0 0 2 0) ++ " bytes")) ∧
      readBinaryMode [1, 0, 0, 0, 65] =
        (readBinaryMode (([65] : List Nat).drop (u32FromLe 1 0 0 0))).map
          (fun packets => ([65] : List Nat).take (u32FromLe 1 0 0 0) :: packets) ∧
      readBinaryMode [9, 9] = Except.ok [] ∧
      readBinaryMode [3, 0, 0, 0, 65] = Except.error LibError.ioUnexpectedEof := by
  obtain ⟨ha, hb, hc, hd⟩ := c5_binary_read_errors
  exact ⟨ha 0 0 2 0 [] (by decide), hb 1 0 0 0 [65] (by decide) (by decide),
    hc [9, 9] (by decide), hd 3 0 0 0 [65] (by decide) (by decide)⟩

/-- **C3** — SDDS gap accounting: a sequence number that is a multiple of
32 only becomes the new `last_seq` (no gap is added); any other sequence
number adds `(seq − (last_seq + 1)) mod 2¹⁶` to `skipped_in_period`.
Feeding sequences `[1, 2, 3, 5]` yields `skipped == 1`, and
`[31, 32, 33]` yields `skipped == 0` (encoded as packets carrying the
sequence number big-endian at bytes `[2..4]`). -/
theorem c3_sdds_gap (packet : List Nat) (s : SddsState) (prev : Nat)
    (hlast : s.lastSeq = some prev) (_hprev : prev < 65536) :
    (frameSequenceNumber packet % 32 = 0 →
        sddsProcessPacket packet s =
          { s with lastSeq := some (frameSequenceNumber packet) }) ∧
      (frameSequenceNumber packet % 32 ≠ 0 →
        (sddsProcessPacket packet s).skippedInPeriod =
          s.skippedInPeriod +
            (((frameSequenceNumber packet : Int) - (prev + 1)) % 65536).toNat) ∧
      (sddsRun [[0, 0, 0, 1], [0, 0, 0, 2], [0, 0, 0, 3], [0, 0, 0, 5]]
        sddsStateDefault).skippedInPeriod = 1 ∧
      (sddsRun [[0, 0, 0, 31], [0, 0, 0, 32], [0, 0, 0, 33]]
        sddsStateDefault).skippedInPeriod = 0 := by
  have hseq := frameSequenceNumber_lt packet
  refine ⟨?_, ?_, by decide, by decide⟩
  · intro h
    simp [sddsProcessPacket, h]
  · intro h
    simp only [sddsProcessPacket, hlast, if_neg h]
    split_ifs with h1 h2 <;> simp <;> omega

/-- **C3** witness: the gap formula applied to a packet with sequence 5
after `last_seq = 3` (a gap of one), plus the `[1, 2, 3, 5]` scenario via
the same theorem. -/
theorem c3_sdds_gap_witness :
    (sddsProcessPacket [0, 0, 0, 5] ⟨some 3, 0, ""⟩).skippedInPeriod =
        0 + (((frameSequenceNumber [0, 0, 0, 5] : Int) - (3 + 1)) % 65536).toNat ∧
      (sddsRun [[0, 0, 0, 1], [0, 0, 0, 2], [0, 0, 0, 3], [0, 0, 0, 5]]
        sddsStateDefault).skippedInPeriod = 1 := by
  have h := c3_sdds_gap [0, 0, 0, 5] ⟨some 3, 0, ""⟩ 3 rfl (by decide)
  exact ⟨h.2.1 (by decide), h.2.2.1⟩

/-- **C4** — counterexample.  The claim states `frame_size == 0x4567` for
the packet `56 52 4C 50 12 34 56 78`; the parser in src/vita49.rs yields
`0x45678` (the low 20 bits of the big-endian word `0x12345678`), so the
claim fails at this very input.  (The repository's own unit test asserts
the same `0x4567`, which the code contradicts; the spec's §4.G bit-layout
description matches the code.) -/
theorem c4_vrlp_parse_counterexample :
    (parseHeader [0x56, 0x52, 0x4C, 0x50, 0x12, 0x34, 0x56, 0x78]).frameSize ≠ 0x4567 := by
  decide

/-- **C4** (amended) — parsing the 8-byte packet `56 52 4C 50 12 34 56 78`
with the VITA 49 VRLP header parser yields
`frame_sequence_number == 0x123` and `frame_size == 0x45678`. -/
theorem c4_vrlp_parse :
    parseHeader [0x56, 0x52, 0x4C, 0x50, 0x12, 0x34, 0x56, 0x78] =
      { frameSequenceNumber := 0x123, frameSize := 0x45678 } := by
  decide

/-- **C6** — the code evaluated at the claim's failing input: an input
argument of `"-"` dispatches to `read_from_file("-")`, i.e. the reader
opens a file literally named `-`; the stdin sentinel the dispatch actually
accepts is `"="`.  The CLI help (`-i`, src/main.rs) and the spec document
`-` as stdin, so the dispatch guard contradicts the program's own
documentation. -/
theorem c6_stdin_dispatch_eval :
    runReaderDispatch (some "-") = ReaderSource.fileSource "-" ∧
      runReaderDispatch (some "-") ≠ ReaderSource.stdinSource ∧
      runReaderDispatch (some "=") = ReaderSource.stdinSource := by
  refine ⟨?_, ?_, ?_⟩ <;> simp [runReaderDispatch]

/-- **C7** — counterexample.  A `Packet` whose logical length 5 exceeds
its one-byte buffer: the claim says the byte view is empty, but the view
is the whole buffer `[7]`. -/
theorem c7_deref_counterexample :
    (((Packet.new [7]).setLength 5).data.length < ((Packet.new [7]).setLength 5).length) ∧
      ((Packet.new [7]).setLength 5).deref ≠ [] := by
  decide

/-- **C7** (amended) — for every `Packet` whose logical length exceeds the
length of its data buffer, the read-only byte view is the entire data
buffer (the clamp is `min(length, data.len())`, not a clamp to empty). -/
theorem c7_deref_clamp (p : Packet) (h : p.data.length < p.length) :
    p.deref = p.data := by
  unfold Packet.deref sliceGet
  have hmin : min p.length p.data.length = p.data.length := by omega
  rw [hmin]
  simp

/-- **C7** witness: the amended theorem applied to the counterexample
packet. -/
theorem c7_deref_clamp_witness : ((Packet.new [7]).setLength 5).deref = [7] := by
  have h := c7_deref_clamp ((Packet.new [7]).setLength 5) (by decide)
  simpa using h

/-- **C9** — the protocol decoders are total and defensive: on any slice
too short for the field, `frame_sequence_number`, `time_tag` and
`time_tag_ext` return 0, and on any slice shorter than 8 bytes or whose
first four bytes differ from ASCII `"VRLP"`, `parse_header` returns the
all-zero header. -/
theorem c9_decoders_total (p : List Nat) :
    (p.length < 4 → frameSequenceNumber p = 0) ∧
      (p.length < 16 → timeTag p = 0) ∧
      (p.length < 20 → timeTagExt p = 0) ∧
      (p.length < 8 → parseHeader p = { frameSequenceNumber := 0, frameSize := 0 }) ∧
      (sliceGet p 0 4 ≠ some [86, 82, 76, 80] →
        parseHeader p = { frameSequenceNumber := 0, frameSize := 0 }) := by
  refine ⟨?_, ?_, ?_, ?_, ?_⟩
  · intro h
    unfold frameSequenceNumber sliceGet
    rw [if_neg (by omega)]
  · intro h
    unfold timeTag sliceGet
    rw [if_neg (by omega)]
  · intro h
    unfold timeTagExt sliceGet
    rw [if_neg (by omega)]
  · intro h
    unfold parseHeader HEADER_SIZE
    rw [if_pos h]
  · intro h
    unfold parseHeader
    by_cases hlen : p.length < HEADER_SIZE
    · rw [if_pos hlen]
    · rw [if_neg hlen, if_pos h]

/-- **C9** witness: the decoders evaluated on the short slice `[1, 2, 3]`
(too short for every field and without the `VRLP` magic). -/
theorem c9_decoders_total_witness :
    frameSequenceNumber [1, 2, 3] = 0 ∧ timeTag [1, 2, 3] = 0 ∧
      timeTagExt [1, 2, 3] = 0 ∧
      parseHeader [1, 2, 3] = { frameSequenceNumber := 0, frameSize := 0 } ∧
      parseHeader [1, 2, 3] = { frameSequenceNumber := 0, frameSize := 0 } := by
  obtain ⟨h1, h2, h3, h4, h5⟩ := c9_decoders_total [1, 2, 3]
  exact ⟨h1 (by decide), h2 (by decide), h3 (by decide), h4 (by decide), h5 (by decide)⟩

/-- **C1** — for a network run with finite `max_count = M > 0` and no
errors, the reader's clamp keeps the shared `packet_count` at most `M`;
when the source delivered at least `M` packets the final count is exactly
`M` and the reader has signalled exit (so it stops producing and the
process shuts down). -/
theorem c1_max_count_gate (M : Nat) (pt : PacketType) (v : Bool)
    (events : List (List Nat)) (hM : 0 < M) :
    (readFromNetworkLoop M ⟨0, false, pt, v⟩ events).packetCount ≤ M ∧
      (M ≤ producedCount events →
        (readFromNetworkLoop M ⟨0, false, pt, v⟩ events).packetCount = M ∧
          (readFromNetworkLoop M ⟨0, false, pt, v⟩ events).shouldExit = true) := by
  obtain ⟨hcount, hflag⟩ :=
    readFromNetworkLoop_spec M hM events ⟨0, false, pt, v⟩ rfl (by simpa using hM)
  simp only [packetCount_mk, Nat.zero_add] at hcount hflag
  refine ⟨by omega, fun hp => ⟨by omega, hflag.mpr hp⟩⟩

/-- **C1** witness: `max_count = 2` against two `recvmmsg` events
delivering three valid packets — the count stops exactly at 2 and exit is
signalled. -/
theorem c1_max_count_gate_witness :
    (readFromNetworkLoop 2 ⟨0, false, PacketType.text, false⟩
          [[10, 10, 10, 0], [5]]).packetCount = 2 ∧
      (readFromNetworkLoop 2 ⟨0, false, PacketType.text, false⟩
          [[10, 10, 10, 0], [5]]).shouldExit = true := by
  exact (c1_max_count_gate 2 PacketType.text false [[10, 10, 10, 0], [5]]
    (by decide)).2 (by decide)

/-- **C8** — counterexample.  One batch of one packet is still queued when
`should_exit` is observed and the window's `packet_count` is 0: the claim
says the drained packet is included in the last window's packet count
(which would make it `0 + 1`), but the drain loop of `produce_stats` never
increments `packet_count`. -/
theorem c8_drain_count_counterexample :
    (produceStatsExitDrain sddsProcessPacket [[[0, 0, 0, 1]]] 0 sddsStateDefault).1 ≠
      0 + 1 := by
  decide

/-- **C8** (amended) — when `should_exit` becomes true, the statistics
stage drains every batch still queued on its channel before returning,
applying the per-packet accumulator update to each drained packet in
order; the drained packets are **not** added to the report window's packet
count (which is left unchanged, and no further report is emitted after the
drain). -/
theorem c8_exit_drain (σ : Type) (process : List Nat → σ → σ)
    (queued : List (List (List Nat))) (packetCount : Nat) (state : σ) :
    produceStatsExitDrain process queued packetCount state =
      (packetCount, (queued.flatMap id).foldl (fun a p => process p a) state) := by
  unfold produceStatsExitDrain
  rw [← List.flatten_eq_flatMap, List.foldl_flatten]

/-- **C10** — in the non-rate-limited network writer, one loop iteration
collects up to 32 batches from the channel, passes only the first 32
packets of their concatenation to `sendmmsg`, and clears the collected
batches: whenever the concatenation holds more than 32 packets, the
packets after the first 32 are in neither the send list nor the remaining
channel contents — they are lost. -/
theorem c10_sendmmsg_discard (α : Type) (channel : List (List α)) :
    (sendmmsgIteration channel).1 = ((channel.take 32).flatMap id).take 32 ∧
      (sendmmsgIteration channel).1.length =
        min 32 ((channel.take 32).flatMap id).length ∧
      (sendmmsgIteration channel).2 = channel.drop 32 ∧
      (32 < ((channel.take 32).flatMap id).length →
        (sendmmsgIteration channel).1 ++ ((channel.take 32).flatMap id).drop 32 =
            (channel.take 32).flatMap id ∧
          ((channel.take 32).flatMap id).drop 32 ≠ []) := by
  refine ⟨rfl, ?_, rfl, fun hover => ⟨?_, ?_⟩⟩
  · simp [sendmmsgIteration, WRITER_BATCH_SIZE, List.length_take]
  · exact List.take_append_drop 32 ((channel.take 32).flatMap id)
  · intro hnil
    have hlen := congrArg List.length hnil
    simp only [List.length_drop, List.length_nil] at hlen
    omega

/-- **C10** witness: a single queued batch of 40 packets — 32 are sent,
the remaining 8 are appended to neither the send list nor the channel. -/
theorem c10_sendmmsg_discard_witness :
    (sendmmsgIteration [List.range 40]).1 ++
          ((([List.range 40] : List (List Nat)).take 32).flatMap id).drop 32 =
        (([List.range 40] : List (List Nat)).take 32).flatMap id ∧
      ((([List.range 40] : List (List Nat)).take 32).flatMap id).drop 32 ≠ [] := by
  exact (c10_sendmmsg_discard Nat [List.range 40]).2.2.2 (by decide)

end Mnc
